import Mathlib

/-!
# Verification of the asset resolution and caching subsystem

Shallow embedding of `src/utils/AssetManager.ts` and `src/utils/useAssets.ts`
(the Resolver / Cache / Fetcher / Preload Batcher / Consumption Adapter core).

Modelling conventions:
* JavaScript strings are Lean `String`; `string | undefined` / `string | null`
  parameters are `Option String`.  JavaScript truthiness of a string value
  (`""`, `undefined` and `null` are falsy) is `optStrTruthy`.
* The `Map<string, any>` cache is an association list with `Map` semantics
  (`Cache.get` / `Cache.set` / `has` via `isSome`).
* The network is an oracle `Net` giving, per URL, the outcome of `fetch(url)`
  (GET) and `fetch(url, { method: 'HEAD' })`.  A GET response additionally
  carries the outcome of `response.json()` (`none` models a parse failure);
  the parsed payload is abstracted as the body string.
* `async` methods are sequentialized over the single-threaded event loop:
  each fetcher is a function from (manager state, oracle) to a `FetchResult`
  holding the `Except` outcome (a JavaScript throw is `.error`), the updated
  manager state, and the number of network requests issued by the call.
-/

namespace Portfolio

/-- Type `AssetType` from AssetManager.ts: `'json' | 'image' | 'texture' | 'document' | 'asset'`. -/
inductive AssetType
  | json
  | image
  | texture
  | document
  | asset
deriving DecidableEq, Repr

/-- Template-literal stringification of an `AssetType` value. -/
def AssetType.str : AssetType → String
  | .json => "json"
  | .image => "image"
  | .texture => "texture"
  | .document => "document"
  | .asset => "asset"

/-- The `r2` field of `AssetConfig`: `{ baseUrl: string; bucketName?: string }`. -/
structure R2Config where
  baseUrl : String
  bucketName : Option String
deriving DecidableEq, Repr

/-- Interface `AssetConfig` from AssetManager.ts. -/
structure AssetConfig where
  r2 : R2Config
deriving DecidableEq, Repr

/-- Interface `AssetRequest` from AssetManager.ts: `{ name, type, folder? }`. -/
structure AssetRequest where
  name : String
  type : AssetType
  folder : Option String
deriving DecidableEq, Repr

/-- JavaScript truthiness of a `string | undefined` value:
`undefined`/`null` and the empty string are falsy. -/
def optStrTruthy : Option String → Bool
  | none => false
  | some s => !s.isEmpty

/-- A value stored in the `Map<string, any>` cache: either a parsed JSON
document (stored by `fetchJson`, abstracted as its body) or a URL string
(stored by `fetchImageUrl`). -/
inductive CacheValue
  | jsonData (body : String)
  | urlString (url : String)
deriving DecidableEq, Repr

/-- Reading a cache value back as a string (`fetchImageUrl`'s cache hit
returns the stored value, which at its keys is always a URL string). -/
def CacheValue.asString : CacheValue → String
  | .jsonData body => body
  | .urlString url => url

/-- The in-memory cache: `Map<string, any>` as an association list. -/
abbrev Cache := List (String × CacheValue)

/-- Method `Map.get`. -/
def Cache.get : Cache → String → Option CacheValue
  | [], _ => none
  | (k', v) :: rest, k => if k' = k then some v else Cache.get rest k

/-- Method `Map.has`. -/
def Cache.has (c : Cache) (k : String) : Bool :=
  (Cache.get c k).isSome

/-- Method `Map.set`: insert or overwrite. -/
def Cache.set : Cache → String → CacheValue → Cache
  | [], k, v => [(k, v)]
  | (k', v') :: rest, k, v =>
      if k' = k then (k, v) :: rest else (k', v') :: Cache.set rest k v

/-- The `AssetManager` instance state: its config and its cache. -/
structure AssetManager where
  config : AssetConfig
  cache : Cache
deriving DecidableEq, Repr

/-- The outcome the network oracle assigns to one `fetch` call. -/
inductive FetchOutcome
  /-- The promise rejected (transport-level failure). -/
  | reject
  /-- A response arrived, with its `ok` flag, `status`, `statusText`, and —
  for GET — the outcome of `response.json()` (`none` = parse failure). -/
  | response (ok : Bool) (status : Nat) (statusText : String) (body : Option String)
deriving DecidableEq, Repr

/-- The network oracle: outcomes of GET and HEAD requests per URL. -/
structure Net where
  get : String → FetchOutcome
  head : String → FetchOutcome

/-- Result of one asynchronous fetcher call: the settled outcome (a throw is
`.error`), the manager state afterwards, and the number of network requests
the call issued. -/
structure FetchResult (α : Type) where
  result : Except String α
  manager : AssetManager
  requests : Nat
deriving Repr

/-- Method `getDirectAssetUrl` (AssetManager.ts line 52): treats the argument as a
complete path relative to the R2 base URL. -/
def AssetManager.getDirectAssetUrl (m : AssetManager) (path : String) : String :=
  m.config.r2.baseUrl ++ "/" ++ path

/-- Method `getAssetUrl` (AssetManager.ts lines 59–89): `if (folder)` is JavaScript
truthiness, so an empty-string override falls through to the `switch` on the
asset type. -/
def AssetManager.getAssetUrl (m : AssetManager) (request : AssetRequest) : String :=
  let baseUrl := m.config.r2.baseUrl
  let folderPath :=
    if optStrTruthy request.folder then request.folder.getD ""
    else
      match request.type with
      | .texture => "textures"
      | .image => "assets"
      | .asset => "assets"
      | .json => "data"
      | .document => "documents"
  baseUrl ++ "/" ++ folderPath ++ "/" ++ request.name

/-- Method `getCacheKey` (AssetManager.ts lines 94–96):
`type + "_" + (request.folder || 'default') + "_" + name`, where `||` is
JavaScript truthiness (an empty-string folder yields `'default'`). -/
def AssetManager.getCacheKey (request : AssetRequest) : String :=
  request.type.str ++ "_" ++
    (if optStrTruthy request.folder then request.folder.getD "" else "default") ++
    "_" ++ request.name

/-- The constructor (AssetManager.ts lines 39–46): stores the config and logs.
It contains no validation and no throw path; the console output is modelled as
the returned log list (the bucket line is printed only for a truthy name). -/
def AssetManager.construct (config : AssetConfig) :
    Except String (AssetManager × List String) :=
  let logs :=
    ["AssetManager: Using Cloudflare R2 at " ++ config.r2.baseUrl] ++
      (if optStrTruthy config.r2.bucketName then
        ["R2 Bucket: " ++ config.r2.bucketName.getD ""]
      else [])
  .ok ({ config := config, cache := [] }, logs)

/-- Modelled from the spec: §7 names a ConfigError — "required base URL missing
at construction; fatal, thrown immediately, no request is ever attempted".  The
identical check (with this exact error text) appears in the mangled header
comment of AssetManager.ts but not in its compiled constructor; this definition
follows that documented behaviour for comparison with `AssetManager.construct`. -/
def AssetManager.constructChecked (config : AssetConfig) :
    Except String (AssetManager × List String) :=
  if optStrTruthy config.r2.baseUrl then AssetManager.construct config
  else .error "VITE_R2_BASE_URL environment variable is required but not set"

/-- Method `fetchJson` (AssetManager.ts lines 101–124): on a cache hit return the
cached value with no request; on a miss, GET the resolved URL; a rejected
fetch, a non-ok status or a `response.json()` failure throws without caching;
on success the parsed data is cached and returned. -/
def AssetManager.fetchJson (m : AssetManager) (net : Net) (name : String)
    (folder : Option String) : FetchResult CacheValue :=
  let request : AssetRequest := { name := name, type := .json, folder := folder }
  let cacheKey := AssetManager.getCacheKey request
  if Cache.has m.cache cacheKey then
    { result := .ok ((Cache.get m.cache cacheKey).getD (.jsonData ""))
      manager := m
      requests := 0 }
  else
    let url := m.getAssetUrl request
    match net.get url with
    | .reject =>
        { result := .error "TypeError: fetch failed", manager := m, requests := 1 }
    | .response ok status statusText body =>
        if ok then
          match body with
          | none =>
              { result := .error "SyntaxError: JSON parse failure"
                manager := m
                requests := 1 }
          | some b =>
              { result := .ok (.jsonData b)
                manager := { m with cache := Cache.set m.cache cacheKey (.jsonData b) }
                requests := 1 }
        else
          { result := .error
              ("Failed to fetch JSON: " ++ toString status ++ " " ++ statusText)
            manager := m
            requests := 1 }

/-- Method `fetchImageUrl` (AssetManager.ts lines 129–152): on a cache hit return the
cached URL with no request; on a miss, resolve the URL, probe it with HEAD; a
rejected probe or a non-ok status throws without caching; on success the URL is
cached and returned. -/
def AssetManager.fetchImageUrl (m : AssetManager) (net : Net) (name : String)
    (folder : Option String) : FetchResult String :=
  let request : AssetRequest := { name := name, type := .image, folder := folder }
  let cacheKey := AssetManager.getCacheKey request
  if Cache.has m.cache cacheKey then
    { result := .ok (((Cache.get m.cache cacheKey).getD (.urlString "")).asString)
      manager := m
      requests := 0 }
  else
    let url := m.getAssetUrl request
    match net.head url with
    | .reject =>
        { result := .error "TypeError: fetch failed", manager := m, requests := 1 }
    | .response ok status _ _ =>
        if ok then
          { result := .ok url
            manager := { m with cache := Cache.set m.cache cacheKey (.urlString url) }
            requests := 1 }
        else
          { result := .error ("Image not found: " ++ toString status)
            manager := m
            requests := 1 }

/-- Method `fetchTextureUrl` (AssetManager.ts lines 157–159): pure URL computation,
no probe, no caching. -/
def AssetManager.fetchTextureUrl (m : AssetManager) (name : String) : String :=
  m.getAssetUrl { name := name, type := .texture, folder := none }

/-- Method `fetchTextureUrlsFromPaths` (AssetManager.ts lines 164–166). -/
def AssetManager.fetchTextureUrlsFromPaths (m : AssetManager)
    (paths : List String) : List String :=
  paths.map fun path => m.getDirectAssetUrl path

/-- Method `fetchTextureUrls` (AssetManager.ts lines 171–173). -/
def AssetManager.fetchTextureUrls (m : AssetManager) (names : List String) :
    List String :=
  names.map fun name => m.getAssetUrl { name := name, type := .texture, folder := none }

/-- Method `fetchImageUrlFromPath` (AssetManager.ts lines 178–180). -/
def AssetManager.fetchImageUrlFromPath (m : AssetManager) (path : String) : String :=
  m.getDirectAssetUrl path

/-- Method `fetchDocumentUrlFromPath` (AssetManager.ts lines 185–187). -/
def AssetManager.fetchDocumentUrlFromPath (m : AssetManager) (path : String) : String :=
  m.getDirectAssetUrl path

/-- Method `fetchDocumentUrl` (AssetManager.ts lines 192–195). -/
def AssetManager.fetchDocumentUrl (m : AssetManager) (name : String)
    (folder : Option String) : String :=
  m.getAssetUrl { name := name, type := .document, folder := folder }

/-- Method `fetchAssetUrl` (AssetManager.ts lines 200–203). -/
def AssetManager.fetchAssetUrl (m : AssetManager) (name : String) (type : AssetType)
    (folder : Option String) : String :=
  m.getAssetUrl { name := name, type := type, folder := folder }

/-- The body of the per-request closure in `preloadAssets` (AssetManager.ts
lines 209–226) before its `catch`: `json` awaits `fetchJson`, `image`/`asset`
await `fetchImageUrl` (both may throw — propagated here as `.error`), while
`texture`/`document` only build URLs (not even awaited) and cannot throw. -/
def AssetManager.preloadDispatch (m : AssetManager) (net : Net)
    (asset : AssetRequest) : Except String AssetManager × Nat :=
  match asset.type with
  | .json =>
      let r := m.fetchJson net asset.name asset.folder
      (r.result.map fun _ => r.manager, r.requests)
  | .image =>
      let r := m.fetchImageUrl net asset.name asset.folder
      (r.result.map fun _ => r.manager, r.requests)
  | .asset =>
      let r := m.fetchImageUrl net asset.name asset.folder
      (r.result.map fun _ => r.manager, r.requests)
  | .texture => (.ok m, 0)
  | .document => (.ok m, 0)

/-- One settled preload closure: the `catch` discards any error (the manager is
left as it was — the failing fetchers never modify the cache). -/
def AssetManager.preloadStep (net : Net) (acc : AssetManager × Nat)
    (asset : AssetRequest) : AssetManager × Nat :=
  match AssetManager.preloadDispatch acc.1 net asset with
  | (.ok m', n) => (m', acc.2 + n)
  | (.error _, n) => (acc.1, acc.2 + n)

/-- Method `preloadAssets` (AssetManager.ts lines 208–233): every dispatched closure
carries its own try/catch, and the results are awaited with
`Promise.allSettled`; the operations are sequentialized over the
single-threaded event loop.  The returned pair is the final manager state and
the total number of network requests issued by the batch. -/
def AssetManager.preloadAssets (m : AssetManager) (net : Net)
    (assets : List AssetRequest) : Except String (AssetManager × Nat) :=
  .ok (assets.foldl (AssetManager.preloadStep net) (m, 0))

/-- The cache-populating request a preload entry actually issues: `json`
entries keep their request shape; `image` and `asset` entries are both routed
through `fetchImageUrl`, which rebuilds the request with type `image`;
`texture` and `document` entries populate nothing. -/
def preloadRequest (asset : AssetRequest) : Option AssetRequest :=
  match asset.type with
  | .json => some { name := asset.name, type := .json, folder := asset.folder }
  | .image => some { name := asset.name, type := .image, folder := asset.folder }
  | .asset => some { name := asset.name, type := .image, folder := asset.folder }
  | .texture => none
  | .document => none

/-- The cache key a preload entry populates on success, if any. -/
def preloadKey (asset : AssetRequest) : Option String :=
  (preloadRequest asset).map AssetManager.getCacheKey

/-- Whether the fixed network oracle lets a preload entry's caching fetch
succeed: an ok GET with parseable body for `json`, an ok HEAD for
`image`/`asset`; `texture`/`document` entries cache nothing. -/
def preloadSucceeds (cfg : AssetConfig) (net : Net) (asset : AssetRequest) : Bool :=
  match preloadRequest asset with
  | none => false
  | some r =>
      let url := AssetManager.getAssetUrl { config := cfg, cache := [] } r
      match r.type with
      | .json =>
          match net.get url with
          | .response true _ _ (some _) => true
          | _ => false
      | _ =>
          match net.head url with
          | .response true _ _ _ => true
          | _ => false

/-- Interface `AssetState<T>` from useAssets.ts, minus the `refetch` closure: the
tri-state asynchronous result exposed to a view. -/
structure AssetState (α : Type) where
  data : Option α
  loading : Bool
  error : Option String
deriving DecidableEq, Repr

/-- Interface `UseAssetOptions` from useAssets.ts. -/
structure UseAssetOptions where
  preload : Option Bool
  fallback : Option String
  folder : Option String
deriving DecidableEq, Repr

/-- Expression `options.fallback || null` (JavaScript `||`: an empty-string fallback
collapses to `null`). -/
def fallbackOrNull (options : UseAssetOptions) : Option String :=
  if optStrTruthy options.fallback then options.fallback else none

/-- The settled effect of one `fetchData` run of `useJsonAsset`
(useAssets.ts lines 32–52): `if (!name)` short-circuits to
`{data: null, loading: false, error: null}` with no fetch; otherwise the
state after the awaited `fetchJson` settles.  Returns the final
`AssetState`, the manager state, and the number of network requests. -/
def useJsonAssetFetch (name : Option String) (options : UseAssetOptions)
    (m : AssetManager) (net : Net) : AssetState CacheValue × AssetManager × Nat :=
  if !optStrTruthy name then
    ({ data := none, loading := false, error := none }, m, 0)
  else
    let r := m.fetchJson net (name.getD "") options.folder
    match r.result with
    | .ok v => ({ data := some v, loading := false, error := none }, r.manager, r.requests)
    | .error e => ({ data := none, loading := false, error := some e }, r.manager, r.requests)

/-- The settled effect of one `fetchData` run of `useImageAsset`
(useAssets.ts lines 79–99): `if (!name)` short-circuits to
`{data: options.fallback || null, loading: false, error: null}` with no
fetch; otherwise the state after the awaited `fetchImageUrl` settles (on
failure `data` is again `options.fallback || null`). -/
def useImageAssetFetch (name : Option String) (options : UseAssetOptions)
    (m : AssetManager) (net : Net) : AssetState String × AssetManager × Nat :=
  if !optStrTruthy name then
    ({ data := fallbackOrNull options, loading := false, error := none }, m, 0)
  else
    let r := m.fetchImageUrl net (name.getD "") options.folder
    match r.result with
    | .ok url => ({ data := some url, loading := false, error := none }, r.manager, r.requests)
    | .error e =>
        ({ data := fallbackOrNull options, loading := false, error := some e },
          r.manager, r.requests)

/-- The settled effect of one `fetchData` run of `useTextureAssetsFromPaths`
(useAssets.ts lines 124–144): `if (!memoizedPaths || memoizedPaths.length === 0)`
short-circuits to `{data: null, loading: false, error: null}` with no fetcher
invocation; otherwise `fetchTextureUrlsFromPaths` (pure URL mapping, cannot
throw) supplies the data. -/
def useTextureAssetsFromPathsFetch (paths : Option (List String))
    (m : AssetManager) : AssetState (List String) × AssetManager × Nat :=
  match paths with
  | none => ({ data := none, loading := false, error := none }, m, 0)
  | some ps =>
      if ps.length = 0 then
        ({ data := none, loading := false, error := none }, m, 0)
      else
        ({ data := some (m.fetchTextureUrlsFromPaths ps), loading := false, error := none },
          m, 0)

/-- The settled effect of one `fetchData` run of `useTextureAssets`
(useAssets.ts lines 169–189): same short-circuit on a null or empty names
array, otherwise `fetchTextureUrls` supplies the data. -/
def useTextureAssetsFetch (names : Option (List String))
    (m : AssetManager) : AssetState (List String) × AssetManager × Nat :=
  match names with
  | none => ({ data := none, loading := false, error := none }, m, 0)
  | some ns =>
      if ns.length = 0 then
        ({ data := none, loading := false, error := none }, m, 0)
      else
        ({ data := some (m.fetchTextureUrls ns), loading := false, error := none },
          m, 0)

/-- A network oracle on which every request fails (used for concrete
instantiations where no request may be issued anyway). -/
def rejectNet : Net :=
  { get := fun _ => .reject, head := fun _ => .reject }

/-! ## Cache lemmas -/

theorem Cache.get_set_self (c : Cache) (k : String) (v : CacheValue) :
    Cache.get (Cache.set c k v) k = some v := by
  induction c with
  | nil => simp [Cache.set, Cache.get]
  | cons p rest ih =>
      obtain ⟨k0, v0⟩ := p
      by_cases h0 : k0 = k <;> simp [Cache.set, Cache.get, h0, ih]

theorem Cache.get_set_ne (c : Cache) (k k' : String) (v : CacheValue)
    (h : k' ≠ k) : Cache.get (Cache.set c k v) k' = Cache.get c k' := by
  induction c with
  | nil => simp [Cache.set, Cache.get, Ne.symm h]
  | cons p rest ih =>
      obtain ⟨k0, v0⟩ := p
      by_cases h0 : k0 = k
      · subst h0
        simp [Cache.set, Cache.get, Ne.symm h]
      · simp [Cache.set, Cache.get, h0, ih]

theorem Cache.has_set (c : Cache) (k k' : String) (v : CacheValue) :
    Cache.has (Cache.set c k v) k' = (k' = k || Cache.has c k') := by
  by_cases h : k' = k
  · subst h
    simp [Cache.has, Cache.get_set_self]
  · simp [Cache.has, Cache.get_set_ne c k k' v h, h]

/-! ## Claim theorems: the pure Resolver layer -/

/-- C1: the claim says constructing the R2-style manager with an empty base
URL throws a ConfigError before any fetch.  The compiled constructor
(AssetManager.ts lines 39–46) performs no such check: with `baseUrl = ""` it
returns successfully (code bug — the check, with this very error message, sits
only in the file's mangled header comment).  The spec-modelled checked variant
errors on the same input, exhibiting the divergence. -/
theorem construct_empty_baseUrl_does_not_throw :
    (AssetManager.construct { r2 := { baseUrl := "", bucketName := none } }).isOk = true ∧
    AssetManager.constructChecked { r2 := { baseUrl := "", bucketName := none } } =
      .error "VITE_R2_BASE_URL environment variable is required but not set" := by
  constructor
  · rfl
  · rfl

/-- C5 (counterexample): with the folder override present but empty, the claim
computes `baseUrl + "/" + "" + "/" + name`, while `getAssetUrl` falls back to
the category default (`data`), because `if (folder)` is JavaScript truthiness. -/
theorem getAssetUrl_claim_counterexample :
    AssetManager.getAssetUrl
        { config := { r2 := { baseUrl := "https://r2.example", bucketName := none } },
          cache := [] }
        { name := "a.json", type := .json, folder := some "" } =
      "https://r2.example/data/a.json" ∧
    "https://r2.example/data/a.json" ≠
      "https://r2.example" ++ "/" ++ "" ++ "/" ++ "a.json" := by
  constructor
  · rfl
  · decide

/-- C5 (amended): `getAssetUrl` is a pure function of its arguments returning
`baseUrl + "/" + folder + "/" + name`, where the folder is the override when
it is given **and non-empty**, and otherwise the category default
(`texture→textures`, `image→assets`, `asset→assets`, `json→data`,
`document→documents`). -/
theorem getAssetUrl_formula (cfg : AssetConfig) (cache : Cache) (name : String)
    (type : AssetType) (folder : Option String) :
    AssetManager.getAssetUrl { config := cfg, cache := cache }
        { name := name, type := type, folder := folder } =
      cfg.r2.baseUrl ++ "/" ++
        (match folder with
         | some f =>
             if f = "" then
               match type with
               | .texture => "textures"
               | .image => "assets"
               | .asset => "assets"
               | .json => "data"
               | .document => "documents"
             else f
         | none =>
             match type with
             | .texture => "textures"
             | .image => "assets"
             | .asset => "assets"
             | .json => "data"
             | .document => "documents") ++ "/" ++ name := by
  cases folder with
  | none => cases type <;> rfl
  | some f =>
      by_cases hf : f = ""
      · subst hf
        cases type <;> rfl
      · have hne : f.isEmpty = false := by
          rcases h : f.isEmpty with _ | _
          · rfl
          · exact absurd ((String.isEmpty_iff f).mp h) hf
        cases type <;>
          simp [AssetManager.getAssetUrl, optStrTruthy, hf, hne]

/-- C6: `getDirectAssetUrl` concatenates the base URL, a slash and the path
verbatim, for every configuration, cache state and path; no category or
folder mapping is involved and the path is not normalized. -/
theorem getDirectAssetUrl_concat (cfg : AssetConfig) (cache : Cache) (path : String) :
    AssetManager.getDirectAssetUrl { config := cfg, cache := cache } path =
      cfg.r2.baseUrl ++ "/" ++ path := rfl

/-- C7 (counterexample): with the folder override present but empty, the claim
computes `"json" + "_" + "" + "_" + "a"`, while `getCacheKey` yields
`json_default_a`, because `request.folder || 'default'` is JavaScript `||`. -/
theorem getCacheKey_claim_counterexample :
    AssetManager.getCacheKey { name := "a", type := .json, folder := some "" } =
      "json_default_a" ∧
    "json_default_a" ≠ "json" ++ "_" ++ "" ++ "_" ++ "a" := by
  constructor
  · rfl
  · decide

/-- C7 (amended): the cache key equals
`category + "_" + folder + "_" + name` where the middle segment is the folder
override when it is given **and non-empty** and `"default"` otherwise; in
particular any two requests with identical `(category, folderOverride, name)`
produce the same key. -/
theorem getCacheKey_formula (name : String) (type : AssetType)
    (folder : Option String) :
    AssetManager.getCacheKey { name := name, type := type, folder := folder } =
      type.str ++ "_" ++
        (match folder with
         | some f => if f = "" then "default" else f
         | none => "default") ++ "_" ++ name := by
  cases folder with
  | none => rfl
  | some f =>
      by_cases hf : f = ""
      · subst hf
        rfl
      · have hne : f.isEmpty = false := by
          rcases h : f.isEmpty with _ | _
          · rfl
          · exact absurd ((String.isEmpty_iff f).mp h) hf
        simp [AssetManager.getCacheKey, optStrTruthy, hf, hne]

/-- C8: the batched texture resolvers return one URL per input element and
preserve index correspondence exactly: the element at index `i` of the output
is the resolved URL of the element at index `i` of the input, for every input
array. -/
theorem fetchTextureUrls_index_correspondence (m : AssetManager)
    (paths names : List String) :
    (m.fetchTextureUrlsFromPaths paths).length = paths.length ∧
    (∀ i : Nat, (m.fetchTextureUrlsFromPaths paths)[i]? =
        (paths[i]?).map fun p => m.getDirectAssetUrl p) ∧
    (m.fetchTextureUrls names).length = names.length ∧
    (∀ i : Nat, (m.fetchTextureUrls names)[i]? =
        (names[i]?).map fun n =>
          m.getAssetUrl { name := n, type := .texture, folder := none }) := by
  refine ⟨?_, fun i => ?_, ?_, fun i => ?_⟩ <;>
    simp [AssetManager.fetchTextureUrlsFromPaths, AssetManager.fetchTextureUrls]

/-! ## Fetcher-level lemmas -/

/-- The payload `fetchJson` can extract from a GET outcome: present exactly
when the response arrived with `ok` and `response.json()` parsed. -/
def FetchOutcome.jsonBody : FetchOutcome → Option String
  | .response true _ _ (some b) => some b
  | _ => none

/-- Whether a HEAD outcome passes `fetchImageUrl`'s existence probe. -/
def FetchOutcome.headOK : FetchOutcome → Bool
  | .response true _ _ _ => true
  | _ => false

theorem fetchJson_cache_hit (m : AssetManager) (net : Net) (name : String)
    (folder : Option String)
    (h : Cache.has m.cache
        (AssetManager.getCacheKey { name := name, type := .json, folder := folder }) = true) :
    m.fetchJson net name folder =
      { result := .ok ((Cache.get m.cache
            (AssetManager.getCacheKey
              { name := name, type := .json, folder := folder })).getD (.jsonData ""))
        manager := m
        requests := 0 } := by
  simp [AssetManager.fetchJson, h]

theorem fetchJson_miss_ok (m : AssetManager) (net : Net) (name : String)
    (folder : Option String) (b : String)
    (hmiss : Cache.has m.cache
        (AssetManager.getCacheKey { name := name, type := .json, folder := folder }) = false)
    (hok : (net.get (m.getAssetUrl
        { name := name, type := .json, folder := folder })).jsonBody = some b) :
    m.fetchJson net name folder =
      { result := .ok (.jsonData b)
        manager :=
          { config := m.config
            cache := Cache.set m.cache
              (AssetManager.getCacheKey { name := name, type := .json, folder := folder })
              (.jsonData b) }
        requests := 1 } := by
  rcases hnet : net.get (m.getAssetUrl { name := name, type := .json, folder := folder }) with
    _ | ⟨ok, status, statusText, body⟩
  · rw [hnet] at hok
    exact absurd hok (by simp [FetchOutcome.jsonBody])
  · rw [hnet] at hok
    cases ok
    · exact absurd hok (by simp [FetchOutcome.jsonBody])
    · cases body with
      | none => exact absurd hok (by simp [FetchOutcome.jsonBody])
      | some b' =>
          have hb : b' = b := by
            simpa [FetchOutcome.jsonBody] using hok
          subst hb
          simp [AssetManager.fetchJson, hmiss, hnet]

theorem fetchJson_miss_fail (m : AssetManager) (net : Net) (name : String)
    (folder : Option String)
    (hmiss : Cache.has m.cache
        (AssetManager.getCacheKey { name := name, type := .json, folder := folder }) = false)
    (hfail : (net.get (m.getAssetUrl
        { name := name, type := .json, folder := folder })).jsonBody = none) :
    (m.fetchJson net name folder).result.isOk = false ∧
    (m.fetchJson net name folder).manager = m ∧
    (m.fetchJson net name folder).requests = 1 := by
  rcases hnet : net.get (m.getAssetUrl { name := name, type := .json, folder := folder }) with
    _ | ⟨ok, status, statusText, body⟩
  · simp [AssetManager.fetchJson, hmiss, hnet, Except.isOk, Except.toBool]
  · rw [hnet] at hfail
    cases ok
    · simp [AssetManager.fetchJson, hmiss, hnet, Except.isOk, Except.toBool]
    · cases body with
      | none => simp [AssetManager.fetchJson, hmiss, hnet, Except.isOk, Except.toBool]
      | some b' => exact absurd hfail (by simp [FetchOutcome.jsonBody])

theorem fetchImageUrl_cache_hit (m : AssetManager) (net : Net) (name : String)
    (folder : Option String)
    (h : Cache.has m.cache
        (AssetManager.getCacheKey { name := name, type := .image, folder := folder }) = true) :
    m.fetchImageUrl net name folder =
      { result := .ok (((Cache.get m.cache
            (AssetManager.getCacheKey
              { name := name, type := .image, folder := folder })).getD
                (.urlString "")).asString)
        manager := m
        requests := 0 } := by
  simp [AssetManager.fetchImageUrl, h]

theorem fetchImageUrl_miss_ok (m : AssetManager) (net : Net) (name : String)
    (folder : Option String)
    (hmiss : Cache.has m.cache
        (AssetManager.getCacheKey { name := name, type := .image, folder := folder }) = false)
    (hok : (net.head (m.getAssetUrl
        { name := name, type := .image, folder := folder })).headOK = true) :
    m.fetchImageUrl net name folder =
      { result := .ok (m.getAssetUrl { name := name, type := .image, folder := folder })
        manager :=
          { config := m.config
            cache := Cache.set m.cache
              (AssetManager.getCacheKey { name := name, type := .image, folder := folder })
              (.urlString (m.getAssetUrl
                { name := name, type := .image, folder := folder })) }
        requests := 1 } := by
  rcases hnet : net.head (m.getAssetUrl { name := name, type := .image, folder := folder }) with
    _ | ⟨ok, status, statusText, body⟩
  · rw [hnet] at hok
    exact absurd hok (by simp [FetchOutcome.headOK])
  · rw [hnet] at hok
    cases ok
    · exact absurd hok (by simp [FetchOutcome.headOK])
    · simp [AssetManager.fetchImageUrl, hmiss, hnet]

theorem fetchImageUrl_miss_fail (m : AssetManager) (net : Net) (name : String)
    (folder : Option String)
    (hmiss : Cache.has m.cache
        (AssetManager.getCacheKey { name := name, type := .image, folder := folder }) = false)
    (hfail : (net.head (m.getAssetUrl
        { name := name, type := .image, folder := folder })).headOK = false) :
    (m.fetchImageUrl net name folder).result.isOk = false ∧
    (m.fetchImageUrl net name folder).manager = m ∧
    (m.fetchImageUrl net name folder).requests = 1 := by
  rcases hnet : net.head (m.getAssetUrl { name := name, type := .image, folder := folder }) with
    _ | ⟨ok, status, statusText, body⟩
  · simp [AssetManager.fetchImageUrl, hmiss, hnet, Except.isOk, Except.toBool]
  · rw [hnet] at hfail
    cases ok
    · simp [AssetManager.fetchImageUrl, hmiss, hnet, Except.isOk, Except.toBool]
    · exact absurd hfail (by simp [FetchOutcome.headOK])

theorem fetchJson_preserves_entry (m : AssetManager) (net : Net) (name : String)
    (folder : Option String) (k : String) (w : CacheValue)
    (h : Cache.get m.cache k = some w) :
    Cache.get ((m.fetchJson net name folder).manager).cache k = some w := by
  cases hhit : Cache.has m.cache
      (AssetManager.getCacheKey { name := name, type := .json, folder := folder }) with
  | true =>
      rw [fetchJson_cache_hit m net name folder hhit]
      exact h
  | false =>
      cases hjb : (net.get (m.getAssetUrl
          { name := name, type := .json, folder := folder })).jsonBody with
      | none =>
          rw [(fetchJson_miss_fail m net name folder hhit hjb).2.1]
          exact h
      | some b =>
          rw [fetchJson_miss_ok m net name folder b hhit hjb]
          have hk : k ≠ AssetManager.getCacheKey
              { name := name, type := .json, folder := folder } := by
            intro he
            rw [he] at h
            simp [Cache.has, h] at hhit
          simpa [Cache.get_set_ne m.cache _ k (.jsonData b) hk] using h

theorem fetchImageUrl_preserves_entry (m : AssetManager) (net : Net) (name : String)
    (folder : Option String) (k : String) (w : CacheValue)
    (h : Cache.get m.cache k = some w) :
    Cache.get ((m.fetchImageUrl net name folder).manager).cache k = some w := by
  cases hhit : Cache.has m.cache
      (AssetManager.getCacheKey { name := name, type := .image, folder := folder }) with
  | true =>
      rw [fetchImageUrl_cache_hit m net name folder hhit]
      exact h
  | false =>
      cases hho : (net.head (m.getAssetUrl
          { name := name, type := .image, folder := folder })).headOK with
      | false =>
          rw [(fetchImageUrl_miss_fail m net name folder hhit hho).2.1]
          exact h
      | true =>
          rw [fetchImageUrl_miss_ok m net name folder hhit hho]
          have hk : k ≠ AssetManager.getCacheKey
              { name := name, type := .image, folder := folder } := by
            intro he
            rw [he] at h
            simp [Cache.has, h] at hhit
          simpa [Cache.get_set_ne m.cache _ k (.urlString _) hk] using h

/-! ## Claim theorems: Fetcher caching behaviour -/

/-- C2: `fetchJson` is idempotent through the cache — after a successful call
for `(name, folder)`, a later call with the same arguments returns the same
value, leaves the state unchanged and issues no network request; moreover any
existing cache entry is preserved by every `fetchJson` / `fetchImageUrl` call
(a successful fetch never overwrites an entry with a different value). -/
theorem fetchJson_idempotent (m : AssetManager) (net : Net) (name : String)
    (folder : Option String) (v : CacheValue)
    (h : (m.fetchJson net name folder).result = .ok v) :
    ((m.fetchJson net name folder).manager.fetchJson net name folder).result = .ok v ∧
    ((m.fetchJson net name folder).manager.fetchJson net name folder).manager =
      (m.fetchJson net name folder).manager ∧
    ((m.fetchJson net name folder).manager.fetchJson net name folder).requests = 0 ∧
    (∀ (m' : AssetManager) (k : String) (w : CacheValue) (name' : String)
        (folder' : Option String),
      Cache.get m'.cache k = some w →
        Cache.get ((m'.fetchJson net name' folder').manager).cache k = some w ∧
        Cache.get ((m'.fetchImageUrl net name' folder').manager).cache k = some w) := by
  have hpres : ∀ (m' : AssetManager) (k : String) (w : CacheValue) (name' : String)
      (folder' : Option String),
      Cache.get m'.cache k = some w →
        Cache.get ((m'.fetchJson net name' folder').manager).cache k = some w ∧
        Cache.get ((m'.fetchImageUrl net name' folder').manager).cache k = some w :=
    fun m' k w name' folder' hw =>
      ⟨fetchJson_preserves_entry m' net name' folder' k w hw,
       fetchImageUrl_preserves_entry m' net name' folder' k w hw⟩
  cases hhit : Cache.has m.cache
      (AssetManager.getCacheKey { name := name, type := .json, folder := folder }) with
  | true =>
      have e1 := fetchJson_cache_hit m net name folder hhit
      have hv : (Cache.get m.cache (AssetManager.getCacheKey
          { name := name, type := .json, folder := folder })).getD (.jsonData "") = v := by
        rw [e1] at h
        exact Except.ok.inj h
      refine ⟨?_, ?_, ?_, hpres⟩ <;> (simp only [e1]; (try simp [hv]))
  | false =>
      cases hjb : (net.get (m.getAssetUrl
          { name := name, type := .json, folder := folder })).jsonBody with
      | none =>
          exfalso
          have hbad := (fetchJson_miss_fail m net name folder hhit hjb).1
          rw [h] at hbad
          simp [Except.isOk, Except.toBool] at hbad
      | some b =>
          have e1 := fetchJson_miss_ok m net name folder b hhit hjb
          have hv : CacheValue.jsonData b = v := by
            rw [e1] at h
            exact Except.ok.inj h
          subst hv
          have hhit2 : Cache.has
              (Cache.set m.cache (AssetManager.getCacheKey
                { name := name, type := .json, folder := folder }) (.jsonData b))
              (AssetManager.getCacheKey
                { name := name, type := .json, folder := folder }) = true := by
            simp [Cache.has, Cache.get_set_self]
          have e2 := fetchJson_cache_hit
            { config := m.config
              cache := Cache.set m.cache (AssetManager.getCacheKey
                { name := name, type := .json, folder := folder }) (.jsonData b) }
            net name folder hhit2
          refine ⟨?_, ?_, ?_, hpres⟩ <;>
            (simp only [e1]; simp [e2, Cache.get_set_self])

/-- Concrete manager with an empty cache for witnesses. -/
def m0 : AssetManager :=
  { config := { r2 := { baseUrl := "https://r2.example", bucketName := none } }
    cache := [] }

/-- A network oracle on which every GET succeeds with body `BODY` and every
HEAD succeeds. -/
def okNet : Net :=
  { get := fun _ => .response true 200 "OK" (some "BODY")
    head := fun _ => .response true 200 "OK" none }

theorem fetchJson_idempotent_witness :
    (m0.fetchJson okNet "config.json" none).result = .ok (.jsonData "BODY") ∧
    (((m0.fetchJson okNet "config.json" none).manager.fetchJson okNet
        "config.json" none).result = .ok (.jsonData "BODY") ∧
      ((m0.fetchJson okNet "config.json" none).manager.fetchJson okNet
        "config.json" none).manager = (m0.fetchJson okNet "config.json" none).manager ∧
      ((m0.fetchJson okNet "config.json" none).manager.fetchJson okNet
        "config.json" none).requests = 0 ∧
      (∀ (m' : AssetManager) (k : String) (w : CacheValue) (name' : String)
          (folder' : Option String),
        Cache.get m'.cache k = some w →
          Cache.get ((m'.fetchJson okNet name' folder').manager).cache k = some w ∧
          Cache.get ((m'.fetchImageUrl okNet name' folder').manager).cache k = some w)) :=
  ⟨rfl, fetchJson_idempotent m0 okNet "config.json" none (.jsonData "BODY") rfl⟩

/-- C3: no negative caching in `fetchImageUrl` — starting from a state with no
entry for the key, the call issues exactly one probe; if the probe fails the
call rejects, the state is left unchanged and a retry probes the network
again; the key is cached exactly when the probe succeeds, and then it holds
the resolved URL, which is also the returned value. -/
theorem fetchImageUrl_negative_caching (m : AssetManager) (net : Net)
    (name : String) (folder : Option String)
    (hmiss : Cache.has m.cache
        (AssetManager.getCacheKey { name := name, type := .image, folder := folder }) = false) :
    (m.fetchImageUrl net name folder).requests = 1 ∧
    ((net.head (m.getAssetUrl
        { name := name, type := .image, folder := folder })).headOK = false →
      (m.fetchImageUrl net name folder).result.isOk = false ∧
      (m.fetchImageUrl net name folder).manager = m ∧
      ((m.fetchImageUrl net name folder).manager.fetchImageUrl net name folder).requests = 1) ∧
    (Cache.has ((m.fetchImageUrl net name folder).manager).cache
        (AssetManager.getCacheKey { name := name, type := .image, folder := folder }) =
      (net.head (m.getAssetUrl
        { name := name, type := .image, folder := folder })).headOK) ∧
    ((net.head (m.getAssetUrl
        { name := name, type := .image, folder := folder })).headOK = true →
      (m.fetchImageUrl net name folder).result =
        .ok (m.getAssetUrl { name := name, type := .image, folder := folder }) ∧
      Cache.get ((m.fetchImageUrl net name folder).manager).cache
          (AssetManager.getCacheKey { name := name, type := .image, folder := folder }) =
        some (.urlString (m.getAssetUrl
          { name := name, type := .image, folder := folder }))) := by
  cases hho : (net.head (m.getAssetUrl
      { name := name, type := .image, folder := folder })).headOK with
  | false =>
      obtain ⟨h1, h2, h3⟩ := fetchImageUrl_miss_fail m net name folder hmiss hho
      refine ⟨h3, fun _ => ⟨h1, h2, ?_⟩, ?_, fun hc => Bool.noConfusion hc⟩
      · rw [h2]
        exact h3
      · rw [h2]
        exact hmiss
  | true =>
      have e := fetchImageUrl_miss_ok m net name folder hmiss hho
      refine ⟨?_, fun hc => Bool.noConfusion hc, ?_, fun _ => ⟨?_, ?_⟩⟩ <;>
        simp [e, Cache.has, Cache.get_set_self]

/-- A network oracle on which every GET rejects and every HEAD returns 404. -/
def net404 : Net :=
  { get := fun _ => .reject
    head := fun _ => .response false 404 "Not Found" none }

theorem fetchImageUrl_negative_caching_witness :
    Cache.has m0.cache (AssetManager.getCacheKey
      { name := "missing.png", type := .image, folder := none }) = false ∧
    ((m0.fetchImageUrl net404 "missing.png" none).requests = 1 ∧
      ((net404.head (m0.getAssetUrl
          { name := "missing.png", type := .image, folder := none })).headOK = false →
        (m0.fetchImageUrl net404 "missing.png" none).result.isOk = false ∧
        (m0.fetchImageUrl net404 "missing.png" none).manager = m0 ∧
        ((m0.fetchImageUrl net404 "missing.png" none).manager.fetchImageUrl net404
          "missing.png" none).requests = 1) ∧
      (Cache.has ((m0.fetchImageUrl net404 "missing.png" none).manager).cache
          (AssetManager.getCacheKey
            { name := "missing.png", type := .image, folder := none }) =
        (net404.head (m0.getAssetUrl
          { name := "missing.png", type := .image, folder := none })).headOK) ∧
      ((net404.head (m0.getAssetUrl
          { name := "missing.png", type := .image, folder := none })).headOK = true →
        (m0.fetchImageUrl net404 "missing.png" none).result =
          .ok (m0.getAssetUrl { name := "missing.png", type := .image, folder := none }) ∧
        Cache.get ((m0.fetchImageUrl net404 "missing.png" none).manager).cache
            (AssetManager.getCacheKey
              { name := "missing.png", type := .image, folder := none }) =
          some (.urlString (m0.getAssetUrl
            { name := "missing.png", type := .image, folder := none })))) :=
  ⟨rfl, fetchImageUrl_negative_caching m0 net404 "missing.png" none rfl⟩

/-! ## Claim theorems: Consumption Adapters -/

/-- C9 (counterexample): with a null identifier and `fallback: ""`, the claim
(`data: fallback ?? null`) demands `data = some ""`, but `useImageAsset` sets
`data` via JavaScript `options.fallback || null`, which collapses the
empty-string fallback to `null`. -/
theorem useImageAsset_fallback_counterexample :
    (useImageAssetFetch none
        { preload := none, fallback := some "", folder := none } m0 rejectNet).1.data =
      none ∧
    (none : Option String) ≠ some "" := by
  constructor
  · rfl
  · decide

/-- C9 (amended): binding a Consumption Adapter to a null identifier settles
synchronously to `{data, loading: false, error: null}` with the manager
untouched and zero network requests, where `data` is null for the JSON hook
and, for the image hook, the fallback option when it is given **and
non-empty** (JavaScript `||`), null otherwise. -/
theorem nullIdentifier_short_circuit (options : UseAssetOptions)
    (m : AssetManager) (net : Net) :
    useJsonAssetFetch none options m net =
      ({ data := none, loading := false, error := none }, m, 0) ∧
    useImageAssetFetch none options m net =
      ({ data :=
            (match options.fallback with
             | some f => if f = "" then none else some f
             | none => none),
          loading := false, error := none }, m, 0) := by
  constructor
  · rfl
  · cases hf : options.fallback with
    | none => simp [useImageAssetFetch, fallbackOrNull, optStrTruthy, hf]
    | some f =>
        by_cases he : f = ""
        · subst he
          simp [useImageAssetFetch, fallbackOrNull, optStrTruthy, hf,
            String.isEmpty_iff]
        · have hne : f.isEmpty = false := by
            rcases h : f.isEmpty with _ | _
            · rfl
            · exact absurd ((String.isEmpty_iff f).mp h) he
          simp [useImageAssetFetch, fallbackOrNull, optStrTruthy, hf, hne, he]

/-- C10: the batched texture adapters treat an empty input array exactly like
a null input — they settle to `{data: null, loading: false, error: null}`
with the manager untouched and no fetcher invocation — and their `data` is
never an empty array. -/
theorem emptyPaths_short_circuit (m : AssetManager) :
    useTextureAssetsFromPathsFetch (some []) m = useTextureAssetsFromPathsFetch none m ∧
    useTextureAssetsFromPathsFetch (some []) m =
      ({ data := none, loading := false, error := none }, m, 0) ∧
    (∀ ps, (useTextureAssetsFromPathsFetch ps m).1.data ≠ some []) ∧
    useTextureAssetsFetch (some []) m = useTextureAssetsFetch none m ∧
    useTextureAssetsFetch (some []) m =
      ({ data := none, loading := false, error := none }, m, 0) ∧
    (∀ ns, (useTextureAssetsFetch ns m).1.data ≠ some []) := by
  refine ⟨rfl, rfl, fun ps => ?_, rfl, rfl, fun ns => ?_⟩
  · match ps with
    | none => simp [useTextureAssetsFromPathsFetch]
    | some l =>
        by_cases hl : l.length = 0
        · simp [useTextureAssetsFromPathsFetch, hl]
        · have hne : l ≠ [] := by
            intro he
            exact hl (by simp [he])
          simp [useTextureAssetsFromPathsFetch, hl,
            AssetManager.fetchTextureUrlsFromPaths, hne]
  · match ns with
    | none => simp [useTextureAssetsFetch]
    | some l =>
        by_cases hl : l.length = 0
        · simp [useTextureAssetsFetch, hl]
        · have hne : l ≠ [] := by
            intro he
            exact hl (by simp [he])
          simp [useTextureAssetsFetch, hl, AssetManager.fetchTextureUrls, hne]

/-! ## Preload Batcher lemmas -/

theorem getAssetUrl_cache_irrel (m : AssetManager) (r : AssetRequest) :
    AssetManager.getAssetUrl { config := m.config, cache := [] } r = m.getAssetUrl r := rfl

theorem fetchJson_manager_config (m : AssetManager) (net : Net) (name : String)
    (folder : Option String) :
    (m.fetchJson net name folder).manager.config = m.config := by
  cases hhit : Cache.has m.cache
      (AssetManager.getCacheKey { name := name, type := .json, folder := folder }) with
  | true => rw [fetchJson_cache_hit m net name folder hhit]
  | false =>
      cases hjb : (net.get (m.getAssetUrl
          { name := name, type := .json, folder := folder })).jsonBody with
      | none => rw [(fetchJson_miss_fail m net name folder hhit hjb).2.1]
      | some b => rw [fetchJson_miss_ok m net name folder b hhit hjb]

theorem fetchImageUrl_manager_config (m : AssetManager) (net : Net) (name : String)
    (folder : Option String) :
    (m.fetchImageUrl net name folder).manager.config = m.config := by
  cases hhit : Cache.has m.cache
      (AssetManager.getCacheKey { name := name, type := .image, folder := folder }) with
  | true => rw [fetchImageUrl_cache_hit m net name folder hhit]
  | false =>
      cases hho : (net.head (m.getAssetUrl
          { name := name, type := .image, folder := folder })).headOK with
      | false => rw [(fetchImageUrl_miss_fail m net name folder hhit hho).2.1]
      | true => rw [fetchImageUrl_miss_ok m net name folder hhit hho]

theorem fetchJson_cache_other (m : AssetManager) (net : Net) (name : String)
    (folder : Option String) (k : String)
    (hk : k ≠ AssetManager.getCacheKey { name := name, type := .json, folder := folder }) :
    Cache.get ((m.fetchJson net name folder).manager).cache k = Cache.get m.cache k := by
  cases hhit : Cache.has m.cache
      (AssetManager.getCacheKey { name := name, type := .json, folder := folder }) with
  | true => rw [fetchJson_cache_hit m net name folder hhit]
  | false =>
      cases hjb : (net.get (m.getAssetUrl
          { name := name, type := .json, folder := folder })).jsonBody with
      | none => rw [(fetchJson_miss_fail m net name folder hhit hjb).2.1]
      | some b =>
          rw [fetchJson_miss_ok m net name folder b hhit hjb]
          exact Cache.get_set_ne m.cache _ k (.jsonData b) hk

theorem fetchImageUrl_cache_other (m : AssetManager) (net : Net) (name : String)
    (folder : Option String) (k : String)
    (hk : k ≠ AssetManager.getCacheKey { name := name, type := .image, folder := folder }) :
    Cache.get ((m.fetchImageUrl net name folder).manager).cache k = Cache.get m.cache k := by
  cases hhit : Cache.has m.cache
      (AssetManager.getCacheKey { name := name, type := .image, folder := folder }) with
  | true => rw [fetchImageUrl_cache_hit m net name folder hhit]
  | false =>
      cases hho : (net.head (m.getAssetUrl
          { name := name, type := .image, folder := folder })).headOK with
      | false => rw [(fetchImageUrl_miss_fail m net name folder hhit hho).2.1]
      | true =>
          rw [fetchImageUrl_miss_ok m net name folder hhit hho]
          exact Cache.get_set_ne m.cache _ k (.urlString _) hk

theorem preloadSucceeds_json (cfg : AssetConfig) (net : Net) (nm : String)
    (fo : Option String) :
    preloadSucceeds cfg net { name := nm, type := .json, folder := fo } =
      ((net.get (AssetManager.getAssetUrl { config := cfg, cache := [] }
        { name := nm, type := .json, folder := fo })).jsonBody).isSome := by
  cases hnet : net.get (AssetManager.getAssetUrl { config := cfg, cache := [] }
      { name := nm, type := .json, folder := fo }) with
  | reject => simp [preloadSucceeds, preloadRequest, hnet, FetchOutcome.jsonBody]
  | response ok status statusText body =>
      cases ok <;> cases body <;>
        simp [preloadSucceeds, preloadRequest, hnet, FetchOutcome.jsonBody]

theorem preloadSucceeds_image (cfg : AssetConfig) (net : Net) (nm : String)
    (fo : Option String) :
    preloadSucceeds cfg net { name := nm, type := .image, folder := fo } =
      (net.head (AssetManager.getAssetUrl { config := cfg, cache := [] }
        { name := nm, type := .image, folder := fo })).headOK := by
  cases hnet : net.head (AssetManager.getAssetUrl { config := cfg, cache := [] }
      { name := nm, type := .image, folder := fo }) with
  | reject => simp [preloadSucceeds, preloadRequest, hnet, FetchOutcome.headOK]
  | response ok status statusText body =>
      cases ok <;>
        simp [preloadSucceeds, preloadRequest, hnet, FetchOutcome.headOK]

theorem preloadSucceeds_asset (cfg : AssetConfig) (net : Net) (nm : String)
    (fo : Option String) :
    preloadSucceeds cfg net { name := nm, type := .asset, folder := fo } =
      (net.head (AssetManager.getAssetUrl { config := cfg, cache := [] }
        { name := nm, type := .image, folder := fo })).headOK := by
  cases hnet : net.head (AssetManager.getAssetUrl { config := cfg, cache := [] }
      { name := nm, type := .image, folder := fo }) with
  | reject => simp [preloadSucceeds, preloadRequest, hnet, FetchOutcome.headOK]
  | response ok status statusText body =>
      cases ok <;>
        simp [preloadSucceeds, preloadRequest, hnet, FetchOutcome.headOK]

theorem preloadStep_config (net : Net) (acc : AssetManager × Nat)
    (asset : AssetRequest) :
    (AssetManager.preloadStep net acc asset).1.config = acc.1.config := by
  obtain ⟨nm, ty, fo⟩ := asset
  cases ty <;>
    simp only [AssetManager.preloadStep, AssetManager.preloadDispatch] <;>
    first
    | rfl
    | (rcases hres : (acc.1.fetchJson net nm fo).result with e | v
       · simp [Except.map, hres]
       · simpa [Except.map, hres] using fetchJson_manager_config acc.1 net nm fo)
    | (rcases hres : (acc.1.fetchImageUrl net nm fo).result with e | v
       · simp [Except.map, hres]
       · simpa [Except.map, hres] using fetchImageUrl_manager_config acc.1 net nm fo)

theorem preloadStep_cache_other (net : Net) (acc : AssetManager × Nat)
    (asset : AssetRequest) (k : String)
    (hk : preloadKey asset ≠ some k) :
    Cache.get ((AssetManager.preloadStep net acc asset).1).cache k =
      Cache.get acc.1.cache k := by
  obtain ⟨nm, ty, fo⟩ := asset
  cases ty
  case texture => rfl
  case document => rfl
  case json =>
      have hne : k ≠ AssetManager.getCacheKey
          { name := nm, type := .json, folder := fo } := by
        intro he
        exact hk (by simp [preloadKey, preloadRequest, he])
      rcases hres : (acc.1.fetchJson net nm fo).result with e | v
      · simp [AssetManager.preloadStep, AssetManager.preloadDispatch, Except.map, hres]
      · simpa [AssetManager.preloadStep, AssetManager.preloadDispatch, Except.map, hres]
          using fetchJson_cache_other acc.1 net nm fo k hne
  case image =>
      have hne : k ≠ AssetManager.getCacheKey
          { name := nm, type := .image, folder := fo } := by
        intro he
        exact hk (by simp [preloadKey, preloadRequest, he])
      rcases hres : (acc.1.fetchImageUrl net nm fo).result with e | v
      · simp [AssetManager.preloadStep, AssetManager.preloadDispatch, Except.map, hres]
      · simpa [AssetManager.preloadStep, AssetManager.preloadDispatch, Except.map, hres]
          using fetchImageUrl_cache_other acc.1 net nm fo k hne
  case asset =>
      have hne : k ≠ AssetManager.getCacheKey
          { name := nm, type := .image, folder := fo } := by
        intro he
        exact hk (by simp [preloadKey, preloadRequest, he])
      rcases hres : (acc.1.fetchImageUrl net nm fo).result with e | v
      · simp [AssetManager.preloadStep, AssetManager.preloadDispatch, Except.map, hres]
      · simpa [AssetManager.preloadStep, AssetManager.preloadDispatch, Except.map, hres]
          using fetchImageUrl_cache_other acc.1 net nm fo k hne

theorem preloadStep_cache_key (net : Net) (acc : AssetManager × Nat)
    (asset : AssetRequest) (k : String)
    (hk : preloadKey asset = some k)
    (hmiss : Cache.has acc.1.cache k = false) :
    Cache.has ((AssetManager.preloadStep net acc asset).1).cache k =
      preloadSucceeds acc.1.config net asset := by
  obtain ⟨nm, ty, fo⟩ := asset
  cases ty
  case texture => exact absurd hk (by simp [preloadKey, preloadRequest])
  case document => exact absurd hk (by simp [preloadKey, preloadRequest])
  case json =>
      have hkk : k = AssetManager.getCacheKey
          { name := nm, type := .json, folder := fo } := by
        simpa [preloadKey, preloadRequest] using hk.symm
      subst hkk
      rw [preloadSucceeds_json, getAssetUrl_cache_irrel]
      cases hjb : (net.get (acc.1.getAssetUrl
          { name := nm, type := .json, folder := fo })).jsonBody with
      | some b =>
          have e1 := fetchJson_miss_ok acc.1 net nm fo b hmiss hjb
          simp [AssetManager.preloadStep, AssetManager.preloadDispatch, e1,
            Except.map, Cache.has, Cache.get_set_self, hjb]
      | none =>
          have e := fetchJson_miss_fail acc.1 net nm fo hmiss hjb
          rcases hres : (acc.1.fetchJson net nm fo).result with er | v
          · simp [AssetManager.preloadStep, AssetManager.preloadDispatch,
              Except.map, hres, hmiss, hjb]
          · rw [hres] at e
            simp [Except.isOk, Except.toBool] at e
  case image =>
      have hkk : k = AssetManager.getCacheKey
          { name := nm, type := .image, folder := fo } := by
        simpa [preloadKey, preloadRequest] using hk.symm
      subst hkk
      rw [preloadSucceeds_image, getAssetUrl_cache_irrel]
      cases hho : (net.head (acc.1.getAssetUrl
          { name := nm, type := .image, folder := fo })).headOK with
      | true =>
          have e1 := fetchImageUrl_miss_ok acc.1 net nm fo hmiss hho
          simp [AssetManager.preloadStep, AssetManager.preloadDispatch, e1,
            Except.map, Cache.has, Cache.get_set_self, hho]
      | false =>
          have e := fetchImageUrl_miss_fail acc.1 net nm fo hmiss hho
          rcases hres : (acc.1.fetchImageUrl net nm fo).result with er | v
          · simp [AssetManager.preloadStep, AssetManager.preloadDispatch,
              Except.map, hres, hmiss, hho]
          · rw [hres] at e
            simp [Except.isOk, Except.toBool] at e
  case asset =>
      have hkk : k = AssetManager.getCacheKey
          { name := nm, type := .image, folder := fo } := by
        simpa [preloadKey, preloadRequest] using hk.symm
      subst hkk
      rw [preloadSucceeds_asset, getAssetUrl_cache_irrel]
      cases hho : (net.head (acc.1.getAssetUrl
          { name := nm, type := .image, folder := fo })).headOK with
      | true =>
          have e1 := fetchImageUrl_miss_ok acc.1 net nm fo hmiss hho
          simp [AssetManager.preloadStep, AssetManager.preloadDispatch, e1,
            Except.map, Cache.has, Cache.get_set_self, hho]
      | false =>
          have e := fetchImageUrl_miss_fail acc.1 net nm fo hmiss hho
          rcases hres : (acc.1.fetchImageUrl net nm fo).result with er | v
          · simp [AssetManager.preloadStep, AssetManager.preloadDispatch,
              Except.map, hres, hmiss, hho]
          · rw [hres] at e
            simp [Except.isOk, Except.toBool] at e

theorem preloadStep_hit (net : Net) (acc : AssetManager × Nat) (asset : AssetRequest)
    (k : String) (hk : preloadKey asset = some k)
    (hhit : Cache.has acc.1.cache k = true) :
    (AssetManager.preloadStep net acc asset).1 = acc.1 := by
  obtain ⟨nm, ty, fo⟩ := asset
  cases ty
  case texture => exact absurd hk (by simp [preloadKey, preloadRequest])
  case document => exact absurd hk (by simp [preloadKey, preloadRequest])
  case json =>
      have hkk : k = AssetManager.getCacheKey
          { name := nm, type := .json, folder := fo } := by
        simpa [preloadKey, preloadRequest] using hk.symm
      subst hkk
      simp [AssetManager.preloadStep, AssetManager.preloadDispatch,
        fetchJson_cache_hit acc.1 net nm fo hhit, Except.map]
  case image =>
      have hkk : k = AssetManager.getCacheKey
          { name := nm, type := .image, folder := fo } := by
        simpa [preloadKey, preloadRequest] using hk.symm
      subst hkk
      simp [AssetManager.preloadStep, AssetManager.preloadDispatch,
        fetchImageUrl_cache_hit acc.1 net nm fo hhit, Except.map]
  case asset =>
      have hkk : k = AssetManager.getCacheKey
          { name := nm, type := .image, folder := fo } := by
        simpa [preloadKey, preloadRequest] using hk.symm
      subst hkk
      simp [AssetManager.preloadStep, AssetManager.preloadDispatch,
        fetchImageUrl_cache_hit acc.1 net nm fo hhit, Except.map]

theorem preloadStep_cache_mono (net : Net) (acc : AssetManager × Nat)
    (asset : AssetRequest) (k : String)
    (h : Cache.has acc.1.cache k = true) :
    Cache.has ((AssetManager.preloadStep net acc asset).1).cache k = true := by
  rcases hpk : preloadKey asset with _ | kb
  · have ho := preloadStep_cache_other net acc asset k (by simp [hpk])
    simp only [Cache.has] at h ⊢
    rw [ho]
    exact h
  · by_cases hkb : k = kb
    · subst hkb
      rw [preloadStep_hit net acc asset k hpk h]
      exact h
    · have ho := preloadStep_cache_other net acc asset k
        (by rw [hpk]; intro he; exact hkb (Option.some.inj he).symm)
      simp only [Cache.has] at h ⊢
      rw [ho]
      exact h

theorem preloadFold_config (net : Net) :
    ∀ (assets : List AssetRequest) (acc : AssetManager × Nat),
      ((assets.foldl (AssetManager.preloadStep net) acc).1).config = acc.1.config := by
  intro assets
  induction assets with
  | nil => intro acc; rfl
  | cons b rest ih =>
      intro acc
      rw [List.foldl_cons, ih (AssetManager.preloadStep net acc b),
        preloadStep_config]

theorem preloadFold_cache_other (net : Net) :
    ∀ (assets : List AssetRequest) (acc : AssetManager × Nat) (k : String),
      (∀ a ∈ assets, preloadKey a ≠ some k) →
      Cache.get ((assets.foldl (AssetManager.preloadStep net) acc).1).cache k =
        Cache.get acc.1.cache k := by
  intro assets
  induction assets with
  | nil => intro acc k _; rfl
  | cons b rest ih =>
      intro acc k hall
      rw [List.foldl_cons,
        ih (AssetManager.preloadStep net acc b) k
          (fun a ha => hall a (List.mem_cons_of_mem b ha)),
        preloadStep_cache_other net acc b k (hall b (List.mem_cons_self b rest))]

theorem preloadFold_cache_mono (net : Net) :
    ∀ (assets : List AssetRequest) (acc : AssetManager × Nat) (k : String),
      Cache.has acc.1.cache k = true →
      Cache.has ((assets.foldl (AssetManager.preloadStep net) acc).1).cache k = true := by
  intro assets
  induction assets with
  | nil => intro acc k h; exact h
  | cons b rest ih =>
      intro acc k h
      rw [List.foldl_cons]
      exact ih (AssetManager.preloadStep net acc b) k
        (preloadStep_cache_mono net acc b k h)

theorem preloadFold_spec (net : Net) :
    ∀ (assets : List AssetRequest) (acc : AssetManager × Nat),
      (assets.filterMap preloadKey).Nodup →
      (∀ a ∈ assets, ∀ k, preloadKey a = some k → Cache.has acc.1.cache k = false) →
      ∀ a ∈ assets, ∀ k, preloadKey a = some k →
        Cache.has ((assets.foldl (AssetManager.preloadStep net) acc).1).cache k =
          preloadSucceeds acc.1.config net a := by
  intro assets
  induction assets with
  | nil => intro acc _ _ a ha; exact absurd ha (List.not_mem_nil a)
  | cons b rest ih =>
      intro acc hnodup habs a ha k hk
      rw [List.foldl_cons]
      rcases List.mem_cons.mp ha with heq | hrest
      · subst heq
        rw [List.filterMap_cons, hk] at hnodup
        obtain ⟨hnotin, _⟩ := List.nodup_cons.mp hnodup
        have hstep := preloadStep_cache_key net acc a k hk
          (habs a (List.mem_cons_self a rest) k hk)
        have hrestk : ∀ a' ∈ rest, preloadKey a' ≠ some k := by
          intro a' ha' he
          exact hnotin (List.mem_filterMap.mpr ⟨a', ha', he⟩)
        cases hsucc : preloadSucceeds acc.1.config net a with
        | true =>
            rw [hsucc] at hstep
            exact preloadFold_cache_mono net rest
              (AssetManager.preloadStep net acc a) k hstep
        | false =>
            rw [hsucc] at hstep
            have ho := preloadFold_cache_other net rest
              (AssetManager.preloadStep net acc a) k hrestk
            simp only [Cache.has] at hstep ⊢
            rw [ho]
            exact hstep
      · rcases hkb : preloadKey b with _ | kb
        · rw [List.filterMap_cons, hkb] at hnodup
          have habs' : ∀ a' ∈ rest, ∀ k', preloadKey a' = some k' →
              Cache.has ((AssetManager.preloadStep net acc b).1).cache k' = false := by
            intro a' ha' k' hk'
            have ho := preloadStep_cache_other net acc b k' (by simp [hkb])
            simp only [Cache.has]
            rw [ho]
            exact habs a' (List.mem_cons_of_mem b ha') k' hk'
          have hres := ih (AssetManager.preloadStep net acc b) hnodup habs' a hrest k hk
          rwa [preloadStep_config] at hres
        · rw [List.filterMap_cons, hkb] at hnodup
          obtain ⟨hnotin, hnodup'⟩ := List.nodup_cons.mp hnodup
          have habs' : ∀ a' ∈ rest, ∀ k', preloadKey a' = some k' →
              Cache.has ((AssetManager.preloadStep net acc b).1).cache k' = false := by
            intro a' ha' k' hk'
            by_cases hkk : k' = kb
            · subst hkk
              exact absurd (List.mem_filterMap.mpr ⟨a', ha', hk'⟩) hnotin
            · have ho := preloadStep_cache_other net acc b k'
                (by rw [hkb]; intro he; exact hkk (Option.some.inj he).symm)
              simp only [Cache.has]
              rw [ho]
              exact habs a' (List.mem_cons_of_mem b ha') k' hk'
          have hres := ih (AssetManager.preloadStep net acc b) hnodup' habs' a hrest k hk
          rwa [preloadStep_config] at hres

/-- C4: `preloadAssets` never rejects — for every request list (failing
entries included) it resolves with a final state — and, starting from an
empty cache with pairwise-distinct populated keys, a cache-populating entry
(`json`, `image` or `asset`) is present in the final cache exactly when its
own fetch succeeds against the network oracle; failures of one entry do not
disturb the others. -/
theorem preloadAssets_never_rejects_and_caches (m : AssetManager) (net : Net)
    (assets : List AssetRequest)
    (hempty : m.cache = [])
    (hnodup : (assets.filterMap preloadKey).Nodup) :
    (∀ (m' : AssetManager) (assets' : List AssetRequest),
      ∃ final : AssetManager × Nat, m'.preloadAssets net assets' = .ok final) ∧
    (∃ final : AssetManager × Nat,
      m.preloadAssets net assets = .ok final ∧
      ∀ a ∈ assets, ∀ k, preloadKey a = some k →
        Cache.has final.1.cache k = preloadSucceeds m.config net a) := by
  refine ⟨fun m' assets' => ⟨assets'.foldl (AssetManager.preloadStep net) (m', 0), rfl⟩,
    assets.foldl (AssetManager.preloadStep net) (m, 0), rfl, ?_⟩
  intro a ha k hk
  have habs : ∀ a' ∈ assets, ∀ k', preloadKey a' = some k' →
      Cache.has ((m, 0) : AssetManager × Nat).1.cache k' = false := by
    intro a' _ k' _
    simp [hempty, Cache.has, Cache.get]
  exact preloadFold_spec net assets (m, 0) hnodup habs a ha k hk

/-- A network oracle on which every GET succeeds with body `BODY` and every
HEAD returns 404 (so `json` preload entries succeed and `image` ones fail). -/
def mixedNet : Net :=
  { get := fun _ => .response true 200 "OK" (some "BODY")
    head := fun _ => .response false 404 "Not Found" none }

theorem preloadAssets_never_rejects_and_caches_witness :
    m0.cache = [] ∧
    (([{ name := "config.json", type := .json, folder := none },
       { name := "missing.png", type := .image, folder := none }] :
        List AssetRequest).filterMap preloadKey).Nodup ∧
    ((∀ (m' : AssetManager) (assets' : List AssetRequest),
        ∃ final : AssetManager × Nat, m'.preloadAssets mixedNet assets' = .ok final) ∧
      (∃ final : AssetManager × Nat,
        m0.preloadAssets mixedNet
            [{ name := "config.json", type := .json, folder := none },
             { name := "missing.png", type := .image, folder := none }] = .ok final ∧
        ∀ a ∈ ([{ name := "config.json", type := .json, folder := none },
                { name := "missing.png", type := .image, folder := none }] :
            List AssetRequest), ∀ k, preloadKey a = some k →
          Cache.has final.1.cache k = preloadSucceeds m0.config mixedNet a)) :=
  ⟨rfl, by decide,
    preloadAssets_never_rejects_and_caches m0 mixedNet
      [{ name := "config.json", type := .json, folder := none },
       { name := "missing.png", type := .image, folder := none }] rfl (by decide)⟩

end Portfolio
